import Mathlib

/-!
Verification of the snap-freebsd telemetry daemon against its design
specification.  The development shallowly embeds the relevant Go source
files (the control Config JSON unmarshaller, the ACI archive helpers, the
REST task handlers) and, where the scheduler core itself is not present in
the source tree, models the missing operations from the specification text
(each such definition is marked in its doc comment).
-/

namespace Snap

/-! ## A model of parsed JSON values

Go's encoding/json, after `dec.UseNumber()`, presents a JSON document as
nulls, booleans, numbers, strings, arrays and objects.  Objects are modelled
as association lists; Go map iteration order is arbitrary, the list order
plays that role here.  Numbers are modelled as integers (the configuration
fields at issue are all integral). -/

inductive Json where
  | null
  | bool (b : Bool)
  | num (n : Int)
  | str (s : String)
  | arr (elems : List Json)
  | obj (fields : List (String × Json))

/-- lookupKey finds the value bound to a key in an association list
(the embedding of a Go map index expression). -/
def lookupKey (l : List (String × Json)) (k : String) : Option Json :=
  match l with
  | [] => none
  | (k0, v) :: rest => if k0 = k then some v else lookupKey rest k

/-- setAssoc sets a key in an association list (the embedding of a Go map
assignment). -/
def setAssoc {κ α : Type} [DecidableEq κ] (l : List (κ × α)) (k : κ) (v : α) : List (κ × α) :=
  match l with
  | [] => [(k, v)]
  | (k0, v0) :: rest => if k0 = k then (k, v) :: rest else (k0, v0) :: setAssoc rest k v

namespace Control

/-! ## Embedding of the control package configuration
(source: the control config file, `Config.UnmarshalJSON` and its helpers). -/

/-- GoErr models the error values produced inside the unmarshalling code:
type mismatches from encoding/json, `strconv.Atoi` failures, duration parse
failures, and the `fmt.Errorf` messages of `unmarshalPluginConfig`. -/
inductive GoErr where
  | jsonType (expected : String)
  | atoiErr (s : String)
  | durationErr (s : String)
  | unmarshalTypeErr (msg : String)
deriving DecidableEq, Repr

/-- CfgError models the errors returned from `Config.UnmarshalJSON`: an
error wrapped as `fmt.Errorf("%v (while parsing 'control::<key>')", err)`,
an error returned unwrapped (the `plugins`, `listen_addr`, `listen_port`
cases and the initial map decode), or the
`Unrecognized key '<k>' in global config file while parsing 'control'`
error of the default switch case. -/
inductive CfgError where
  | raw (e : GoErr)
  | wrapped (key : String) (e : GoErr)
  | unrecognizedKey (key : String)
deriving DecidableEq, Repr

/-- ConfigDataNode models the external cdata.ConfigDataNode as the list of
config key/value pairs it decodes from (the cdata library is an external
collaborator; its unmarshaller accepts a JSON object). -/
def decodeConfigDataNode : Json → Except GoErr (List (String × Json))
  | Json.obj fs => .ok fs
  | Json.null => .ok []
  | _ => .error (.jsonType "cdata.ConfigDataNode")

/-- pluginConfigItem embeds the Go struct of the same name: an embedded
ConfigDataNode plus a map from version number to ConfigDataNode. -/
structure pluginConfigItem where
  node : List (String × Json)
  versions : List (Int × List (String × Json))

/-- newPluginConfigItem embeds the Go constructor: empty node, no versions. -/
def newPluginConfigItem : pluginConfigItem := ⟨[], []⟩

/-- pluginTypeConfigItem embeds the Go struct: named plugins plus an "all"
node for the plugin type. -/
structure pluginTypeConfigItem where
  plugins : List (String × pluginConfigItem)
  all : List (String × Json)

/-- newPluginTypeConfigItem embeds the Go constructor. -/
def newPluginTypeConfigItem : pluginTypeConfigItem := ⟨[], []⟩

/-- pluginConfig embeds the Go struct: a global "all" node and one
pluginTypeConfigItem per plugin kind (the pluginCache field only memoises
lookups and is not part of the unmarshalled state). -/
structure pluginConfig where
  all : List (String × Json)
  collector : pluginTypeConfigItem
  processor : pluginTypeConfigItem
  publisher : pluginTypeConfigItem

/-- newPluginConfig embeds the Go constructor. -/
def newPluginConfig : pluginConfig :=
  ⟨[], newPluginTypeConfigItem, newPluginTypeConfigItem, newPluginTypeConfigItem⟩

/-- getTypeItem selects the pluginTypeConfigItem for a plugin-kind string,
mirroring the `switch typ` statements of `unmarshalPluginConfig`. -/
def getTypeItem (p : pluginConfig) : String → pluginTypeConfigItem
  | "collector" => p.collector
  | "processor" => p.processor
  | "publisher" => p.publisher
  | _ => newPluginTypeConfigItem

/-- setTypeItem writes back the pluginTypeConfigItem for a plugin-kind
string. -/
def setTypeItem (p : pluginConfig) (typ : String) (it : pluginTypeConfigItem) : pluginConfig :=
  match typ with
  | "collector" => { p with collector := it }
  | "processor" => { p with processor := it }
  | "publisher" => { p with publisher := it }
  | _ => p

/-- atoi embeds `strconv.Atoi` on the version-string keys: an optional sign
followed by at least one digit. -/
def atoi (s : String) : Except GoErr Int :=
  match s.toInt? with
  | some n => .ok n
  | none => .error (.atoiErr s)

/-- unmarshalVersions embeds the `versions` loop of `unmarshalPluginConfig`:
every version value must itself be a JSON object (decoded into a
ConfigDataNode), and the version key must parse with `strconv.Atoi`; the
node is decoded before the key is parsed, exactly as in the source. -/
def unmarshalVersions (typ name : String) (item : pluginConfigItem) :
    List (String × Json) → Except GoErr pluginConfigItem
  | [] => .ok item
  | (verStr, verVal) :: rest =>
    match verVal with
    | Json.obj _ => do
      let cdn ← decodeConfigDataNode verVal
      let ver ← atoi verStr
      unmarshalVersions typ name { item with versions := setAssoc item.versions ver cdn } rest
    | _ => .error (.unmarshalTypeErr ("Error unmarshalling " ++ typ ++ " " ++ name ++
        " expected object for version " ++ verStr))

/-- unmarshalItemAll embeds the optional "all" key of one named plugin
entry: when present it decodes into the item node of a fresh
`newPluginConfigItem`. -/
def unmarshalItemAll (col : List (String × Json)) : Except GoErr pluginConfigItem :=
  match lookupKey col "all" with
  | some v => do
    let cdn ← decodeConfigDataNode v
    pure { newPluginConfigItem with node := cdn }
  | none => pure newPluginConfigItem

/-- unmarshalItemVersions embeds the optional "versions" key of one named
plugin entry: when present it must be an object handled by
`unmarshalVersions`. -/
def unmarshalItemVersions (typ name : String) (col : List (String × Json))
    (item1 : pluginConfigItem) : Except GoErr pluginConfigItem :=
  match lookupKey col "versions" with
  | some vs =>
    match vs with
    | Json.obj versions => unmarshalVersions typ name item1 versions
    | _ => .error (.unmarshalTypeErr ("Error unmarshalling " ++ typ ++ " " ++ name ++
        " expected object for versions"))
  | none => pure item1

/-- unmarshalPluginEntry embeds the body of the per-name loop of
`unmarshalPluginConfig` for one named plugin: the entry is first installed
as a fresh `newPluginConfigItem`, the value must be an object, its optional
"all" key decodes into the item node and its optional "versions" key must be
an object handled by `unmarshalVersions`. -/
def unmarshalPluginEntry (typ name : String) (it : pluginTypeConfigItem) (c : Json) :
    Except GoErr pluginTypeConfigItem := do
  let it := { it with plugins := setAssoc it.plugins name newPluginConfigItem }
  match c with
  | Json.obj col => do
    let item1 ← unmarshalItemAll col
    let item2 ← unmarshalItemVersions typ name col item1
    pure { it with plugins := setAssoc it.plugins name item2 }
  | _ => .error (.unmarshalTypeErr ("Error unmarshalling " ++ typ ++ " " ++ name ++
      " expected object"))

/-- unmarshalPluginEntries runs `unmarshalPluginEntry` over the named
entries of one plugin kind, with the special "all" key decoding into the
type-level all node. -/
def unmarshalPluginEntries (typ : String) (it : pluginTypeConfigItem) :
    List (String × Json) → Except GoErr pluginTypeConfigItem
  | [] => .ok it
  | (name, c) :: rest =>
    if name = "all" then do
      let cdn ← decodeConfigDataNode c
      unmarshalPluginEntries typ { it with all := cdn } rest
    else do
      let it2 ← unmarshalPluginEntry typ name it c
      unmarshalPluginEntries typ it2 rest

/-- unmarshalPluginConfig embeds the Go function of the same name: if the
plugin-kind key is present its value must be an object whose entries are
processed in turn; an absent key leaves the config unchanged. -/
def unmarshalPluginConfig (typ : String) (p : pluginConfig) (t : List (String × Json)) :
    Except GoErr pluginConfig :=
  match lookupKey t typ with
  | none => .ok p
  | some v =>
    match v with
    | Json.obj plugins => do
      let it ← unmarshalPluginEntries typ (getTypeItem p typ) plugins
      pure (setTypeItem p typ it)
    | _ => .error (.unmarshalTypeErr ("Error unmarshalling " ++ typ ++ " expected object"))

/-- pluginConfigUnmarshalJSON embeds `pluginConfig.UnmarshalJSON`: decode
the payload into a string-keyed map (an object, or null which leaves the
map empty), process the optional "all" key, then the collector, processor
and publisher sections in that order. -/
def pluginConfigUnmarshalJSON (p : pluginConfig) (data : Json) : Except GoErr pluginConfig := do
  let t ←
    match data with
    | Json.obj fs => pure fs
    | Json.null => pure ([] : List (String × Json))
    | _ => .error (.jsonType "map of string to interface")
  let p ←
    match lookupKey t "all" with
    | some v => do
      let cdn ← decodeConfigDataNode v
      pure { p with all := cdn }
    | none => pure p
  let p ← unmarshalPluginConfig "collector" p t
  let p ← unmarshalPluginConfig "processor" p t
  let p ← unmarshalPluginConfig "publisher" p t
  pure p

/-- unmarshalIntField embeds `json.Unmarshal` of a raw message into an int
field: a JSON number sets the field, JSON null leaves it unchanged, and any
other value is a type error. -/
def unmarshalIntField : Json → Except GoErr (Option Int)
  | Json.num n => .ok (some n)
  | Json.null => .ok none
  | _ => .error (.jsonType "int")

/-- unmarshalStringField embeds `json.Unmarshal` of a raw message into a
string field. -/
def unmarshalStringField : Json → Except GoErr (Option String)
  | Json.str s => .ok (some s)
  | Json.null => .ok none
  | _ => .error (.jsonType "string")

/-- durUnitNs gives the nanoseconds of each duration unit accepted by
Go's `time.ParseDuration`. -/
def durUnitNs : String → Option Int
  | "ns" => some 1
  | "us" => some 1000
  | "ms" => some 1000000
  | "s" => some 1000000000
  | "m" => some 60000000000
  | "h" => some 3600000000000
  | _ => none

/-- parseGoDuration models `time.ParseDuration` on the simple form
digits-then-unit, returning nanoseconds (the external jsonutil library
delegates duration strings to this parser). -/
def parseGoDuration (s : String) : Option Int :=
  let digits := s.data.takeWhile Char.isDigit
  let rest := s.data.dropWhile Char.isDigit
  if digits.isEmpty then none
  else
    match (String.mk digits).toNat?, durUnitNs (String.mk rest) with
    | some n, some u => some ((n : Int) * u)
    | _, _ => none

/-- unmarshalDurationField models the external `jsonutil.Duration`
unmarshaller: a JSON string parsed with `time.ParseDuration`; anything else
fails. -/
def unmarshalDurationField : Json → Except GoErr (Option Int)
  | Json.str s =>
    match parseGoDuration s with
    | some n => .ok (some n)
    | none => .error (.durationErr s)
  | Json.null => .error (.durationErr "")
  | _ => .error (.jsonType "string")

/-- Config embeds the control `Config` struct (the snapd control section of
the global configuration); `cacheExpiration` is held in nanoseconds. -/
structure Config where
  maxRunningPlugins : Int
  pluginLoadTimeout : Int
  pluginTrust : Int
  autoDiscoverPath : String
  keyringPaths : String
  cacheExpiration : Int
  plugins : pluginConfig
  listenAddr : String
  listenPort : Int

/-- getDefaultConfig embeds `GetDefaultConfig`: listen address 127.0.0.1,
listen port 8082, max running plugins 3, plugin load timeout 3, plugin
trust 1, empty discovery and keyring paths, 500ms cache expiration, empty
plugin config. -/
def getDefaultConfig : Config :=
  { maxRunningPlugins := 3
    pluginLoadTimeout := 3
    pluginTrust := 1
    autoDiscoverPath := ""
    keyringPaths := ""
    cacheExpiration := 500000000
    plugins := newPluginConfig
    listenAddr := "127.0.0.1"
    listenPort := 8082 }

/-- configUnmarshalStep embeds the body of the key switch inside
`Config.UnmarshalJSON`: each recognised key parses its value into the
corresponding field (errors on the first six keys are wrapped with the
"while parsing" message; the plugins and listen keys return the error
unwrapped), and any other key yields the unrecognized-key error. -/
def configUnmarshalStep (c : Config) (kv : String × Json) : Except CfgError Config :=
  match kv.1 with
  | "max_running_plugins" =>
    match unmarshalIntField kv.2 with
    | .ok (some n) => .ok { c with maxRunningPlugins := n }
    | .ok none => .ok c
    | .error e => .error (.wrapped "max_running_plugins" e)
  | "plugin_load_timeout" =>
    match unmarshalIntField kv.2 with
    | .ok (some n) => .ok { c with pluginLoadTimeout := n }
    | .ok none => .ok c
    | .error e => .error (.wrapped "plugin_load_timeout" e)
  | "plugin_trust_level" =>
    match unmarshalIntField kv.2 with
    | .ok (some n) => .ok { c with pluginTrust := n }
    | .ok none => .ok c
    | .error e => .error (.wrapped "plugin_trust_level" e)
  | "auto_discover_path" =>
    match unmarshalStringField kv.2 with
    | .ok (some s) => .ok { c with autoDiscoverPath := s }
    | .ok none => .ok c
    | .error e => .error (.wrapped "auto_discover_path" e)
  | "keyring_paths" =>
    match unmarshalStringField kv.2 with
    | .ok (some s) => .ok { c with keyringPaths := s }
    | .ok none => .ok c
    | .error e => .error (.wrapped "keyring_paths" e)
  | "cache_expiration" =>
    match unmarshalDurationField kv.2 with
    | .ok (some n) => .ok { c with cacheExpiration := n }
    | .ok none => .ok c
    | .error e => .error (.wrapped "cache_expiration" e)
  | "plugins" =>
    match pluginConfigUnmarshalJSON c.plugins kv.2 with
    | .ok p => .ok { c with plugins := p }
    | .error e => .error (.raw e)
  | "listen_addr" =>
    match unmarshalStringField kv.2 with
    | .ok (some s) => .ok { c with listenAddr := s }
    | .ok none => .ok c
    | .error e => .error (.raw e)
  | "listen_port" =>
    match unmarshalIntField kv.2 with
    | .ok (some n) => .ok { c with listenPort := n }
    | .ok none => .ok c
    | .error e => .error (.raw e)
  | _ => .error (.unrecognizedKey kv.1)

/-- configUnmarshalJSON embeds `Config.UnmarshalJSON`: the input must
decode into a string-keyed map of raw messages (JSON null leaves the map
empty), then the entries are processed in turn by the key switch, stopping
at the first error. -/
def configUnmarshalJSON (c : Config) : Json → Except CfgError Config
  | Json.obj fields => fields.foldlM configUnmarshalStep c
  | Json.null => .ok c
  | _ => .error (.raw (.jsonType "map of string to json.RawMessage"))

/-- recognizedKeys is the set of keys the switch in `Config.UnmarshalJSON`
accepts. -/
def recognizedKeys : List String :=
  ["max_running_plugins", "plugin_load_timeout", "plugin_trust_level",
   "auto_discover_path", "keyring_paths", "cache_expiration",
   "plugins", "listen_addr", "listen_port"]

/-- fieldParses says that the value supplied for a recognised key parses
without error (the per-key parser succeeds); for unrecognised keys it is
vacuously true. -/
def fieldParses (k : String) (v : Json) : Bool :=
  match k with
  | "max_running_plugins" => (unmarshalIntField v).toBool
  | "plugin_load_timeout" => (unmarshalIntField v).toBool
  | "plugin_trust_level" => (unmarshalIntField v).toBool
  | "auto_discover_path" => (unmarshalStringField v).toBool
  | "keyring_paths" => (unmarshalStringField v).toBool
  | "cache_expiration" => (unmarshalDurationField v).toBool
  | "plugins" => (pluginConfigUnmarshalJSON newPluginConfig v).toBool
  | "listen_addr" => (unmarshalStringField v).toBool
  | "listen_port" => (unmarshalIntField v).toBool
  | _ => true

end Control

namespace Aci

/-! ## Embedding of the pkg/aci archive helpers (source: pkg/aci/aci.go). -/

/-- TypeFlag models the tar header type flag values distinguished by the
switch in `Extract`: regular file, directory, and every other entry kind
(symlink, hard link, character or block device, fifo, and so on) which the
default case rejects. -/
inductive TypeFlag where
  | reg
  | dir
  | symlink
  | link
  | chr
  | blk
  | fifo
  | other
deriving DecidableEq, Repr

/-- TarHeader models one tar entry header: its name and type flag. -/
structure TarHeader where
  name : String
  typeflag : TypeFlag
deriving DecidableEq, Repr

/-- TarItem models one step of `tr.Reader.Next()`: either a successfully
read header or a read error (the `ErrNext` branch). -/
inductive TarItem where
  | hdr (h : TarHeader)
  | readErr (msg : String)
deriving DecidableEq, Repr

/-- FsAction records the filesystem effects of `Extract`: `os.Create` of a
regular file, `os.Chmod` of that file, and `os.MkdirAll` of a directory
(modes in octal). -/
inductive FsAction where
  | createFile (path : String)
  | chmodFile (path : String) (mode : Nat)
  | mkdirAll (path : String) (mode : Nat)
deriving DecidableEq, Repr

/-- ExtractErr models the error kinds `Extract` can return: the raw error
of a failed `NewCompressedTarReader` open, `ErrNext` for a failed header
read, and `ErrUntar` naming the offending entry for an unsupported type
flag. -/
inductive ExtractErr where
  | openErr (msg : String)
  | errNext (msg : String)
  | errUntar (name : String)
deriving DecidableEq, Repr

/-- joinPath embeds `filepath.Join(dir, hdr.Name)` for the simple case of a
clean directory prefix. -/
def joinPath (dir name : String) : String := dir ++ "/" ++ name

/-- extractEntries embeds the entry loop of `Extract`: each regular-file
header creates the file and chmods it to 0755 (octal 755 = 493), each
directory header makes the directory with mode 0755, and any other type
flag stops the loop with `ErrUntar` naming the entry; a read error stops it
with `ErrNext`.  The returned action list records the filesystem effects
performed before the loop returned. -/
def extractEntries (dir : String) : List TarItem → List FsAction × Option ExtractErr
  | [] => ([], none)
  | TarItem.readErr msg :: _ => ([], some (.errNext msg))
  | TarItem.hdr h :: rest =>
    let file := joinPath dir h.name
    match h.typeflag with
    | .reg =>
      let (as, r) := extractEntries dir rest
      (FsAction.createFile file :: FsAction.chmodFile file 493 :: as, r)
    | .dir =>
      let (as, r) := extractEntries dir rest
      (FsAction.mkdirAll file 493 :: as, r)
    | _ => ([], some (.errUntar h.name))

/-- isRegOrDir decides whether a header is of the two kinds `Extract`
accepts. -/
def isRegOrDir (h : TarHeader) : Bool :=
  h.typeflag == TypeFlag.reg || h.typeflag == TypeFlag.dir

/-- CompressedInput models what `specaci.NewCompressedTarReader` (an
external appc/spec library call) can make of the reader handed to `Extract`
and `Validate`: a recognised compressed tar stream carrying tar items and a
validity bit, or an unreadable stream for which the library returns a nil
reader together with an error. -/
inductive CompressedInput where
  | stream (items : List TarItem) (archiveValid : Bool)
  | unreadable (msg : String)
deriving DecidableEq, Repr

/-- TarReadCloser models the appc/spec reader handle; its `Close` method
dereferences the inner compressed reader, so closing a nil handle is a nil
pointer dereference. -/
structure TarReadCloser where
  items : List TarItem
  archiveValid : Bool
deriving DecidableEq, Repr

/-- newCompressedTarReader models the external
`specaci.NewCompressedTarReader`: on success a non-nil reader and no error,
on failure a nil reader (`none`) together with the error, exactly the
shape the Go library returns. -/
def newCompressedTarReader : CompressedInput → Option TarReadCloser × Option String
  | CompressedInput.stream items ok => (some ⟨items, ok⟩, none)
  | CompressedInput.unreadable msg => (none, some msg)

/-- Outcome models how a Go function call can finish: a normal return value
or a runtime panic from dereferencing a nil pointer. -/
inductive Outcome (α : Type) where
  | ret (a : α)
  | panicNilDeref
deriving DecidableEq, Repr

/-- runDeferredClose models the deferred `tr.Close()` that runs after the
function body has produced its return value: closing a nil reader
dereferences nil and panics, superseding the computed return; otherwise
the computed return stands. -/
def runDeferredClose {α : Type} (tr : Option TarReadCloser) (body : α) : Outcome α :=
  match tr with
  | none => .panicNilDeref
  | some _ => .ret body

/-- validateArchive models the external `specaci.ValidateArchive` on a
non-nil reader: an error unless the archive is valid. -/
def validateArchive (tr : TarReadCloser) : Option String :=
  if tr.archiveValid then none else some "archive invalid"

/-- Validate embeds `Validate` from pkg/aci/aci.go with its exact statement
order: call `NewCompressedTarReader`, register `defer tr.Close()` before
checking the error, then check the error and validate the archive.  The
deferred close runs on every path, so the outcome is a nil-dereference
panic whenever the reader is nil. -/
def Validate (f : CompressedInput) : Outcome (Option String) :=
  let (tr, err) := newCompressedTarReader f
  let body : Option String :=
    match err with
    | some e => some e
    | none =>
      match tr with
      | some r => validateArchive r
      | none => none
  runDeferredClose tr body

/-- Extract embeds `Extract` from pkg/aci/aci.go: unlike `Validate` it
checks the `NewCompressedTarReader` error and returns it raw before
registering the deferred close, so no nil reader is ever closed; then the
temporary directory is created and the entry loop runs.  The result pairs
the filesystem actions performed with either the extraction directory or
the error. -/
def Extract (dir : String) (f : CompressedInput) :
    List FsAction × Except ExtractErr String :=
  match f with
  | CompressedInput.unreadable msg => ([], .error (.openErr msg))
  | CompressedInput.stream items _ =>
    let (as, r) := extractEntries dir items
    match r with
    | none => (as, .ok dir)
    | some err => (as, .error err)

end Aci

/-- hasPrefixChars decides whether the second character list is a prefix of
the first. -/
def hasPrefixChars : List Char → List Char → Bool
  | _, [] => true
  | [], _ :: _ => false
  | a :: as, b :: bs => a == b && hasPrefixChars as bs

/-- containsChars decides whether the second character list occurs
contiguously inside the first (the embedding of `strings.Contains`). -/
def containsChars : List Char → List Char → Bool
  | [], sub => sub.isEmpty
  | a :: rest, sub => hasPrefixChars (a :: rest) sub || containsChars rest sub

/-- strContains embeds `strings.Contains(s, sub)`. -/
def strContains (s sub : String) : Bool := containsChars s.data sub.data

/-- lookupAssoc finds the value bound to a key in an association list with
string keys. -/
def lookupAssoc {α : Type} (l : List (String × α)) (k : String) : Option α :=
  match l with
  | [] => none
  | (k0, v) :: rest => if k0 = k then some v else lookupAssoc rest k

namespace Rest

/-! ## Embedding of the REST task handlers (source: the rest package task
handler file). -/

/-- errTaskNotFoundMsg is the text of `ErrTaskNotFound`. -/
def errTaskNotFoundMsg : String := "Task not found"

/-- errTaskDisabledNotRunnableMsg is the text of
`ErrTaskDisabledNotRunnable`. -/
def errTaskDisabledNotRunnableMsg : String := "Task is disabled. Cannot be started"

/-- startTaskRespCode embeds the error dispatch of `Server.startTask`: no
errors responds 200; otherwise the first error is matched with
`strings.Contains` against the task-not-found text (404) and then the
task-disabled text (409), and anything else responds 500.  (`errs[0]` on a
non-nil slice: the scheduler never returns an empty non-nil error list, so
the empty case is given the sentinel first message "".) -/
def startTaskRespCode (errs : Option (List String)) : Nat :=
  match errs with
  | none => 200
  | some es =>
    let first := es.headD ""
    if strContains first errTaskNotFoundMsg then 404
    else if strContains first errTaskDisabledNotRunnableMsg then 409
    else 500

/-- StreamEventType models the `rbody` watch-event type tags the handler
file uses (stream open, metric event, task started, task stopped, task
disabled), together with the TaskEnabled tag that the specification lists
on the event wire surface, so that its absence from the handler's range can
be stated. -/
inductive StreamEventType where
  | taskWatchStreamOpen
  | taskWatchMetricEvent
  | taskWatchTaskStarted
  | taskWatchTaskStopped
  | taskWatchTaskDisabled
  | taskWatchTaskEnabled
deriving DecidableEq, Repr

/-- Metric models the `core.Metric` capability the handler reads: a
namespace rendered as a string, dynamic-typed data, a timestamp and tags. -/
structure Metric where
  namespaceStr : String
  data : Json
  timestamp : Nat
  tags : List (String × String)

/-- StreamedMetric embeds `rbody.StreamedMetric`: the tuple the handler
builds for each metric of a collection. -/
structure StreamedMetric where
  namespaceStr : String
  data : Json
  timestamp : Nat
  tags : List (String × String)

/-- StreamedTaskEvent embeds `rbody.StreamedTaskEvent` as the handler fills
it: an event type tag, a message, and the metric batch (empty for
lifecycle events). -/
structure StreamedTaskEvent where
  eventType : StreamEventType
  message : String
  event : List StreamedMetric

/-- HandlerCall enumerates the four catch methods of `TaskWatchHandler`:
CatchCollection, CatchTaskStarted, CatchTaskStopped and CatchTaskDisabled
(these are the only entry points through which the scheduler delivers to a
watcher). -/
inductive HandlerCall where
  | catchCollection (m : List Metric)
  | catchTaskStarted
  | catchTaskStopped
  | catchTaskDisabled (why : String)

/-- streamedFromMetric embeds the per-metric struct literal inside
`CatchCollection`: namespace string, data, timestamp and tags are copied
from the metric. -/
def streamedFromMetric (m : Metric) : StreamedMetric :=
  ⟨m.namespaceStr, m.data, m.timestamp, m.tags⟩

/-- taskWatchHandlerEmit embeds the event each catch method of
`TaskWatchHandler` sends on its channel: CatchCollection sends a
TaskWatchMetricEvent carrying the mapped metrics, CatchTaskStarted and
CatchTaskStopped send their tags with no payload, and CatchTaskDisabled
sends its tag with the reason in the message field. -/
def taskWatchHandlerEmit : HandlerCall → StreamedTaskEvent
  | HandlerCall.catchCollection ms => ⟨.taskWatchMetricEvent, "", ms.map streamedFromMetric⟩
  | HandlerCall.catchTaskStarted => ⟨.taskWatchTaskStarted, "", []⟩
  | HandlerCall.catchTaskStopped => ⟨.taskWatchTaskStopped, "", []⟩
  | HandlerCall.catchTaskDisabled why => ⟨.taskWatchTaskDisabled, why, []⟩

/-- deliveredEventTypes is the range of event type tags the watch handler
can put on the stream for scheduler-delivered events. -/
def deliveredEventTypes : List StreamEventType :=
  [.taskWatchMetricEvent, .taskWatchTaskStarted, .taskWatchTaskStopped, .taskWatchTaskDisabled]

/-- isTerminalCall marks the handler calls whose streamed event makes
`Server.watchTask` close the watcher (`TaskWatchTaskDisabled` and
`TaskWatchTaskStopped` in the select loop). -/
def isTerminalCall : HandlerCall → Bool
  | HandlerCall.catchTaskStopped => true
  | HandlerCall.catchTaskDisabled _ => true
  | _ => false

/-- WatchStep models one occurrence the `watchTask` select loop can wake
on: a scheduler delivery to the registered watcher, the client closing the
connection, or the server shutting down. -/
inductive WatchStep where
  | taskEv (c : HandlerCall)
  | clientClose
  | serverKill

/-- watchDeliver models the combined watcher lifecycle.  The handler side
is embedded from `Server.watchTask`: a metric or started event is written
and the loop continues; a stopped or disabled event is written and then
`tc.Close()` deregisters the watcher; client close and server kill call
`tc.Close()` and return without writing.  The scheduler side is modelled
from the spec: WatchTask registers the handler on the task's event bus and
the close handle removes it, so a deregistered watcher receives no further
deliveries.  The result is the list of events delivered to the watcher. -/
def watchDeliver (registered : Bool) : List WatchStep → List StreamedTaskEvent
  | [] => []
  | step :: rest =>
    if registered then
      match step with
      | WatchStep.taskEv c => taskWatchHandlerEmit c :: watchDeliver (!isTerminalCall c) rest
      | WatchStep.clientClose => watchDeliver false rest
      | WatchStep.serverKill => watchDeliver false rest
    else watchDeliver false rest

/-- goodDeliveryTrace holds of a delivered-event list in which nothing
follows a task-stopped or task-disabled event. -/
def goodDeliveryTrace : List StreamedTaskEvent → Prop
  | [] => True
  | e :: rest =>
    ((e.eventType = StreamEventType.taskWatchTaskStopped ∨
      e.eventType = StreamEventType.taskWatchTaskDisabled) → rest = []) ∧
    goodDeliveryTrace rest

end Rest

namespace Sched

/-! ## The scheduler core.

The scheduler package itself (task, subscription manager, scheduler table)
is not among the repository files here; only its legacy distributed test
and its CLI flag declarations are.  The definitions below are therefore
modelled from the specification text, as their doc comments state, and are
exercised against the shapes the test file pins down (the mock
`subscriptionManager` call counters, the `dsWFMap` workflow). -/

/-- TaskState models the task state machine states of the spec:
Created, Spin (running), Stopped, Disabled, Removed. -/
inductive TaskState where
  | created
  | spinning
  | stopped
  | disabled
  | removed
deriving DecidableEq, Repr

/-- ManagerMock models one Metric Manager client keyed by address, with the
call counters of the test file's mock `subscriptionManager` (SubscribeCallCount,
UnsubscribeCallCount, the Fail switch) plus the number of subscriptions the
manager holds for the task. -/
structure ManagerMock where
  addr : String
  subscribeFails : Bool
  subscribeCallCount : Nat
  unsubscribeCallCount : Nat
  heldForTask : Nat
deriving DecidableEq, Repr

/-- Modelled from the spec: `SubscribeDeps(taskId, metrics, plugins, configTree)`
increments a reference count on the live plugin pool and must be paired with
`UnsubscribeDeps`; a failing manager returns an error.  The Bool result is
true when the call returned an error. -/
def subscribeDeps (m : ManagerMock) : ManagerMock × Bool :=
  if m.subscribeFails then
    ({ m with subscribeCallCount := m.subscribeCallCount + 1 }, true)
  else
    ({ m with subscribeCallCount := m.subscribeCallCount + 1,
              heldForTask := m.heldForTask + 1 }, false)

/-- Modelled from the spec: `UnsubscribeDeps(taskId)` releases every
subscription held for this task id; idempotent; safe with no prior
subscribe. -/
def unsubscribeDeps (m : ManagerMock) : ManagerMock :=
  { m with unsubscribeCallCount := m.unsubscribeCallCount + 1, heldForTask := 0 }

/-- Modelled from the spec: the Subscription Manager's `Prepare` walks the
workflow tree, groups nodes by target address, and invokes `SubscribeDeps`
on the corresponding manager exactly once per address; if any address
returns an error it invokes `UnsubscribeDeps(taskId)` on every address it
has already subscribed, including the failing one, before surfacing the
error.  `done` holds the already-subscribed managers in reverse order; the
Bool result is true when an error is surfaced. -/
def prepareGo (done : List ManagerMock) : List ManagerMock → List ManagerMock × Bool
  | [] => (done.reverse, false)
  | m :: rest =>
    let (m2, failed) := subscribeDeps m
    if failed then
      (((m2 :: done).map unsubscribeDeps).reverse ++ rest, true)
    else
      prepareGo (m2 :: done) rest

/-- prepare runs `prepareGo` over the task's managers, one per address the
workflow touches, starting with none subscribed. -/
def prepare (ms : List ManagerMock) : List ManagerMock × Bool := prepareGo [] ms

/-- StartErr models the error kinds `StartTask` can surface; startErrMsg
below gives the message texts the REST layer matches on. -/
inductive StartErr where
  | taskNotFound
  | taskDisabledNotRunnable
  | subscribeErr
deriving DecidableEq, Repr

/-- startErrMsg renders a start error the way the scheduler's error values
print, matching the REST layer's `strings.Contains` checks. -/
def startErrMsg : StartErr → String
  | StartErr.taskNotFound => Rest.errTaskNotFoundMsg
  | StartErr.taskDisabledNotRunnable => Rest.errTaskDisabledNotRunnableMsg
  | StartErr.subscribeErr => "error"

/-- SchedTask models the per-task record the scheduler's table holds for
starting purposes: its state and its managers, one per address of its
workflow. -/
structure SchedTask where
  state : TaskState
  managers : List ManagerMock
deriving DecidableEq, Repr

/-- StartOutcome packages what a `StartTask` call did: the errors surfaced
(none on success), the table afterwards, and whether the call reached
`Subscription.Prepare`. -/
structure StartOutcome where
  errs : Option (List StartErr)
  table : List (String × SchedTask)
  prepareCalled : Bool

/-- setTask replaces a task's record in the table. -/
def setTask (tbl : List (String × SchedTask)) (id : String) (t : SchedTask) :
    List (String × SchedTask) :=
  setAssoc tbl id t

/-- Modelled from the spec: `StartTask(id)` refuses if the task is Disabled
(the TaskDisabledNotRunnable rejection with no state change) and refuses an
unknown id with TaskNotFound; otherwise it calls `Subscription.Prepare`,
and on a prepare error the task stays in its state and the error is
surfaced, while on success the task enters Spin and the ticker is
spawned. -/
def startTask (tbl : List (String × SchedTask)) (id : String) : StartOutcome :=
  match lookupAssoc tbl id with
  | none => ⟨some [StartErr.taskNotFound], tbl, false⟩
  | some t =>
    if t.state = TaskState.disabled then
      ⟨some [StartErr.taskDisabledNotRunnable], tbl, false⟩
    else
      let (ms, failed) := prepare t.managers
      if failed then
        ⟨some [StartErr.subscribeErr], setTask tbl id { t with managers := ms }, true⟩
      else
        ⟨none, setTask tbl id { t with state := TaskState.spinning, managers := ms }, true⟩

/-- TaskEventTag models the lifecycle and metric events a task emits. -/
inductive TaskEventTag where
  | taskStarted
  | taskStopped
  | taskDisabled (why : String)
  | metricsCollected
  | metricsGatheredMiss
deriving DecidableEq, Repr

/-- FireOutcome models how one firing of a running task ends: every node
succeeded, some node failed, or the Work Manager rejected a unit with
QueueFull (a miss). -/
inductive FireOutcome where
  | success
  | failure (why : String)
  | queueFull
deriving DecidableEq, Repr

/-- TaskRun models the per-task runtime record of the spec data model:
state, consecutive-failure counter, the stop-on-failure threshold (default
3), whether subscriptions are held, the hit and miss counters, and the
events emitted so far. -/
structure TaskRun where
  state : TaskState
  consecutiveFailures : Nat
  stopOnFailure : Nat
  subscriptionHeld : Bool
  hitCount : Nat
  missCount : Nat
  failedCount : Nat
  emitted : List TaskEventTag

/-- Modelled from the spec: the firing bookkeeping of the task state
machine.  A tick does nothing unless the task is in Spin.  Success resets
the consecutive-failure counter, counts a hit and emits MetricsCollected.
QueueFull counts a miss, emits MetricsGatheredMiss and leaves the
consecutive-failure counter alone.  A failure increments the counter and
the failed count; when the counter reaches the stop-on-failure threshold
the task transitions to Disabled, releases its subscriptions and emits
TaskDisabled(why). -/
def fire (t : TaskRun) (o : FireOutcome) : TaskRun :=
  if t.state = TaskState.spinning then
    match o with
    | FireOutcome.success =>
      { t with consecutiveFailures := 0, hitCount := t.hitCount + 1,
               emitted := t.emitted ++ [TaskEventTag.metricsCollected] }
    | FireOutcome.queueFull =>
      { t with missCount := t.missCount + 1,
               emitted := t.emitted ++ [TaskEventTag.metricsGatheredMiss] }
    | FireOutcome.failure why =>
      let cf := t.consecutiveFailures + 1
      if t.stopOnFailure ≤ cf then
        { t with state := TaskState.disabled, consecutiveFailures := cf,
                 failedCount := t.failedCount + 1, subscriptionHeld := false,
                 emitted := t.emitted ++ [TaskEventTag.taskDisabled why] }
      else
        { t with consecutiveFailures := cf, failedCount := t.failedCount + 1 }
  else t

/-- startedTask is a task that has just entered Spin: counter zero,
subscriptions held, TaskStarted emitted; the threshold is a parameter
(default 3 per the spec). -/
def startedTask (threshold : Nat) : TaskRun :=
  { state := TaskState.spinning, consecutiveFailures := 0, stopOnFailure := threshold,
    subscriptionHeld := true, hitCount := 0, missCount := 0, failedCount := 0,
    emitted := [TaskEventTag.taskStarted] }

/-- runFires folds a sequence of firing outcomes over a task. -/
def runFires (t : TaskRun) (os : List FireOutcome) : TaskRun := os.foldl fire t

/-- StepKind models the non-collect workflow node kinds. -/
inductive StepKind where
  | process
  | publish
deriving DecidableEq, Repr

/-- WfStep models one non-collect workflow node: kind, plugin name,
version (-1 meaning latest), config, target address ("" meaning local). -/
structure WfStep where
  kind : StepKind
  name : String
  version : Int
  config : List (String × Json)
  target : String

/-- Workflow models the workflow map handed to CreateTask: the collect
root's requested metrics (namespace, version) and the non-collect nodes. -/
structure Workflow where
  metrics : List (String × Int)
  steps : List WfStep

/-- MgrEnv models what the Metric Manager knows during validation: which
remote addresses can be reached within MAX_CONNECTION_TIMEOUT, which
plugins each address has loaded, and which metrics the local catalogue can
satisfy. -/
structure MgrEnv where
  reachable : String → Bool
  hasPlugin : String → String → Bool
  hasMetric : String → Bool

/-- CreateErr models the error kinds CreateTask can surface: a validation
error naming the unknown plugin or metric, or RemoteUnavailable naming the
unreachable target. -/
inductive CreateErr where
  | validationErr (name : String)
  | remoteUnavailable (target : String)
deriving DecidableEq, Repr

/-- Modelled from the spec: validating one workflow node against the
Metric Manager: a non-empty target that cannot be reached within the
connection timeout yields RemoteUnavailable, a reachable manager without
the plugin yields a validation error, and the local manager ("" target) is
always reachable. -/
def validateStep (env : MgrEnv) (s : WfStep) : List CreateErr :=
  if s.target ≠ "" ∧ ¬ env.reachable s.target then
    [CreateErr.remoteUnavailable s.target]
  else if ¬ env.hasPlugin s.target s.name then
    [CreateErr.validationErr s.name]
  else []

/-- Modelled from the spec: CreateTask validates the workflow against the
Metric Manager: each requested metric must be satisfiable and each named
plugin must exist at the requested version on its target. -/
def validateWorkflow (env : MgrEnv) (wf : Workflow) : List CreateErr :=
  (wf.metrics.filterMap fun m =>
    if env.hasMetric m.1 then none else some (CreateErr.validationErr m.1)) ++
  (wf.steps.foldr (fun s acc => validateStep env s ++ acc) [])

/-- CreateOutcome packages what a CreateTask call did: the created task id
(none when creation was refused), the error list, and the table
afterwards. -/
structure CreateOutcome where
  task : Option String
  errs : List CreateErr
  table : List (String × SchedTask)

/-- Modelled from the spec: `CreateTask(schedule, workflow, start?)`
validates the workflow against the Metric Manager, assigns an id and
inserts into the table; a non-empty error list means the task was NOT
created, so nothing is inserted and no task is returned. -/
def createTask (env : MgrEnv) (tbl : List (String × SchedTask)) (newId : String)
    (wf : Workflow) : CreateOutcome :=
  let errs := validateWorkflow env wf
  if errs.isEmpty then
    ⟨some newId, [],
      setTask tbl newId ⟨TaskState.created, (wf.steps.map fun s => ⟨s.target, false, 0, 0, 0⟩)⟩⟩
  else ⟨none, errs, tbl⟩

/-- CliFlag embeds the `cli.StringFlag` fields the scheduler flag file
sets: the flag name and its environment-variable binding. -/
structure CliFlag where
  name : String
  envVar : String
deriving DecidableEq, Repr

/-- defaultWorkManagerQueueSize is the built-in queue capacity default
(25, per the configuration documentation). -/
def defaultWorkManagerQueueSize : Nat := 25

/-- defaultWorkManagerPoolSize is the built-in worker pool default
(4, per the configuration documentation). -/
def defaultWorkManagerPoolSize : Nat := 4

/-- flSchedulerQueueSize embeds the queue-size flag declaration: name
work-manager-queue-size, environment binding WORK_MANAGER_QUEUE_SIZE. -/
def flSchedulerQueueSize : CliFlag :=
  ⟨"work-manager-queue-size", "WORK_MANAGER_QUEUE_SIZE"⟩

/-- flSchedulerPoolSize embeds the pool-size flag declaration: name
work-manager-pool-size, environment binding WORK_MANAGER_POOL_SIZE. -/
def flSchedulerPoolSize : CliFlag :=
  ⟨"work-manager-pool-size", "WORK_MANAGER_POOL_SIZE"⟩

/-- Modelled from the spec: the effective value of a work-manager option is
the CLI flag when given, else the configuration file value, else the
environment variable, else the built-in default. -/
def resolveOption (cliVal cfgVal envVal : Option Nat) (dflt : Nat) : Nat :=
  match cliVal with
  | some v => v
  | none =>
    match cfgVal with
    | some v => v
    | none =>
      match envVal with
      | some v => v
      | none => dflt

/-- effectiveQueueSize resolves work_manager_queue_size. -/
def effectiveQueueSize (cliVal cfgVal envVal : Option Nat) : Nat :=
  resolveOption cliVal cfgVal envVal defaultWorkManagerQueueSize

/-- effectivePoolSize resolves work_manager_pool_size. -/
def effectivePoolSize (cliVal cfgVal envVal : Option Nat) : Nat :=
  resolveOption cliVal cfgVal envVal defaultWorkManagerPoolSize

end Sched

/-! ## Theorems -/

/-- watchDeliver delivers nothing once the watcher is deregistered (the
close handle has removed it from the scheduler). -/
theorem watchDeliver_deregistered (l : List Rest.WatchStep) :
    Rest.watchDeliver false l = [] := by
  induction l with
  | nil => rfl
  | cons s rest ih => simp [Rest.watchDeliver, ih]

/-- the delivered trace of a registered watcher never continues past a
task-stopped or task-disabled event. -/
theorem watchDeliver_good (steps : List Rest.WatchStep) :
    Rest.goodDeliveryTrace (Rest.watchDeliver true steps) := by
  induction steps with
  | nil => trivial
  | cons s rest ih =>
    cases s with
    | taskEv c =>
      cases c with
      | catchCollection ms =>
        exact ⟨(by intro h; rcases h with h | h <;> cases h), ih⟩
      | catchTaskStarted =>
        exact ⟨(by intro h; rcases h with h | h <;> cases h), ih⟩
      | catchTaskStopped =>
        refine ⟨fun _ => watchDeliver_deregistered rest, ?_⟩
        rw [show Rest.watchDeliver (!Rest.isTerminalCall Rest.HandlerCall.catchTaskStopped) rest
            = Rest.watchDeliver false rest from rfl]
        rw [watchDeliver_deregistered rest]
        trivial
      | catchTaskDisabled why =>
        refine ⟨fun _ => watchDeliver_deregistered rest, ?_⟩
        rw [show Rest.watchDeliver (!Rest.isTerminalCall (Rest.HandlerCall.catchTaskDisabled why)) rest
            = Rest.watchDeliver false rest from rfl]
        rw [watchDeliver_deregistered rest]
        trivial
    | clientClose =>
      show Rest.goodDeliveryTrace (Rest.watchDeliver false rest)
      rw [watchDeliver_deregistered rest]; trivial
    | serverKill =>
      show Rest.goodDeliveryTrace (Rest.watchDeliver false rest)
      rw [watchDeliver_deregistered rest]; trivial

/-- C5: for every task watcher, after it observes a TaskStopped or
TaskDisabled event, or after it is cancelled by the client disconnecting or
the server shutting down, the watch is closed and removed from the
scheduler and no further events are delivered to it: the delivered trace
never continues past a stopped or disabled event, and from a cancellation
on nothing is delivered. -/
theorem C5_watcher_lifecycle (steps : List Rest.WatchStep) :
    Rest.goodDeliveryTrace (Rest.watchDeliver true steps) ∧
    (∀ rest, Rest.watchDeliver true (Rest.WatchStep.clientClose :: rest) = []) ∧
    (∀ rest, Rest.watchDeliver true (Rest.WatchStep.serverKill :: rest) = []) ∧
    (∀ rest, Rest.watchDeliver false rest = []) := by
  refine ⟨watchDeliver_good steps, ?_, ?_, fun rest => watchDeliver_deregistered rest⟩
  · intro rest
    show Rest.watchDeliver false rest = []
    exact watchDeliver_deregistered rest
  · intro rest
    show Rest.watchDeliver false rest = []
    exact watchDeliver_deregistered rest

/-- C6 counterexample: the TaskEnabled tag is not among the event variants
the watch handler can deliver; none of the four catch methods of
TaskWatchHandler emits it. -/
theorem C6_no_task_enabled :
    Rest.StreamEventType.taskWatchTaskEnabled ∉ Rest.deliveredEventTypes ∧
    (Rest.taskWatchHandlerEmit Rest.HandlerCall.catchTaskStarted).eventType ≠
      Rest.StreamEventType.taskWatchTaskEnabled ∧
    (Rest.taskWatchHandlerEmit Rest.HandlerCall.catchTaskStopped).eventType ≠
      Rest.StreamEventType.taskWatchTaskEnabled ∧
    (Rest.taskWatchHandlerEmit (Rest.HandlerCall.catchTaskDisabled "why")).eventType ≠
      Rest.StreamEventType.taskWatchTaskEnabled ∧
    (Rest.taskWatchHandlerEmit (Rest.HandlerCall.catchCollection [])).eventType ≠
      Rest.StreamEventType.taskWatchTaskEnabled := by
  refine ⟨by decide, ?_, ?_, ?_, ?_⟩ <;> (intro h; cases h)

/-- C6 (amended): the event variants delivered to a watcher are exactly
MetricsCollected, TaskStarted, TaskStopped, TaskDisabled (TaskEnabled is
never delivered), each delivered variant is realised, each MetricsCollected
event carries for every metric of the batch the tuple of namespace, data,
timestamp and tags, and the TaskDisabled event carries its reason. -/
theorem C6_watch_event_variants (c : Rest.HandlerCall) (ms : List Rest.Metric)
    (i : Nat) (why : String) (t : Rest.StreamEventType)
    (ht : t ∈ Rest.deliveredEventTypes) :
    (Rest.taskWatchHandlerEmit c).eventType ∈ Rest.deliveredEventTypes ∧
    (∃ c2, (Rest.taskWatchHandlerEmit c2).eventType = t) ∧
    (Rest.taskWatchHandlerEmit (Rest.HandlerCall.catchCollection ms)).event[i]? =
      ms[i]?.map Rest.streamedFromMetric ∧
    (∀ m : Rest.Metric, (Rest.streamedFromMetric m).namespaceStr = m.namespaceStr ∧
      (Rest.streamedFromMetric m).data = m.data ∧
      (Rest.streamedFromMetric m).timestamp = m.timestamp ∧
      (Rest.streamedFromMetric m).tags = m.tags) ∧
    (Rest.taskWatchHandlerEmit (Rest.HandlerCall.catchTaskDisabled why)).message = why := by
  refine ⟨?_, ?_, ?_, fun m => ⟨rfl, rfl, rfl, rfl⟩, rfl⟩
  · cases c <;> simp [Rest.taskWatchHandlerEmit, Rest.deliveredEventTypes]
  · simp only [Rest.deliveredEventTypes, List.mem_cons, List.mem_singleton] at ht
    rcases ht with rfl | rfl | rfl | rfl | h
    · exact ⟨Rest.HandlerCall.catchCollection [], rfl⟩
    · exact ⟨Rest.HandlerCall.catchTaskStarted, rfl⟩
    · exact ⟨Rest.HandlerCall.catchTaskStopped, rfl⟩
    · exact ⟨Rest.HandlerCall.catchTaskDisabled "", rfl⟩
    · cases h
  · simp [Rest.taskWatchHandlerEmit, List.getElem?_map]

/-- C6 witness: the variant emitted for a task-started delivery is among
the delivered set, at a concrete instantiation of the theorem. -/
theorem C6_watch_event_variants_witness :
    (Rest.taskWatchHandlerEmit Rest.HandlerCall.catchTaskStarted).eventType ∈
      Rest.deliveredEventTypes := by
  have h := C6_watch_event_variants Rest.HandlerCall.catchTaskStarted [] 0 "why"
    Rest.StreamEventType.taskWatchTaskStarted (by decide)
  exact h.1

/-- C7: the effective work_manager_queue_size and work_manager_pool_size
are resolved with CLI flag over configuration file over environment over
built-in default (queue 25, pool 4), and the flag declarations bind the
WORK_MANAGER_QUEUE_SIZE and WORK_MANAGER_POOL_SIZE environment
variables. -/
theorem C7_option_precedence :
    (∀ c f e d, Sched.resolveOption (some c) f e d = c) ∧
    (∀ f e d, Sched.resolveOption none (some f) e d = f) ∧
    (∀ e d, Sched.resolveOption none none (some e) d = e) ∧
    (∀ d, Sched.resolveOption none none none d = d) ∧
    Sched.effectiveQueueSize none none none = 25 ∧
    Sched.effectivePoolSize none none none = 4 ∧
    Sched.flSchedulerQueueSize.envVar = "WORK_MANAGER_QUEUE_SIZE" ∧
    Sched.flSchedulerPoolSize.envVar = "WORK_MANAGER_POOL_SIZE" :=
  ⟨fun _ _ _ _ => rfl, fun _ _ _ => rfl, fun _ _ => rfl, fun _ => rfl, rfl, rfl, rfl, rfl⟩

/-- C10: on a reader the compressed-tar opener rejects, Validate does not
return the error: the deferred Close registered before the error check runs
on the nil reader and the call ends in a nil dereference panic, while a
well-formed stream is validated normally. -/
theorem C10_validate_panics_on_open_error :
    Aci.Validate (Aci.CompressedInput.unreadable "gzip: invalid header") =
      Aci.Outcome.panicNilDeref ∧
    Aci.Validate (Aci.CompressedInput.stream [] true) = Aci.Outcome.ret none ∧
    Aci.Validate (Aci.CompressedInput.stream [] false) =
      Aci.Outcome.ret (some "archive invalid") :=
  ⟨rfl, rfl, rfl⟩

/-- an item list with a non-regular non-directory header and no read errors
drives the extract loop to an ErrUntar error naming such an entry. -/
theorem extractEntries_rejects (dir : String) (items : List Aci.TarItem)
    (hbad : ∃ hdr, Aci.TarItem.hdr hdr ∈ items ∧ Aci.isRegOrDir hdr = false)
    (hclean : ∀ m, Aci.TarItem.readErr m ∉ items) :
    ∃ h2, Aci.TarItem.hdr h2 ∈ items ∧ Aci.isRegOrDir h2 = false ∧
      (Aci.extractEntries dir items).2 = some (Aci.ExtractErr.errUntar h2.name) := by
  induction items with
  | nil => obtain ⟨hdr, hm, _⟩ := hbad; cases hm
  | cons item rest ih =>
    cases item with
    | readErr m => exact absurd (List.mem_cons_self _ _) (hclean m)
    | hdr h =>
      cases hflag : h.typeflag with
      | reg =>
        obtain ⟨h2, hm2, hb2, he2⟩ := ih
          (by
            obtain ⟨hdr0, hm0, hb0⟩ := hbad
            rcases List.mem_cons.mp hm0 with heq | hm0
            · cases heq
              rw [Aci.isRegOrDir, hflag] at hb0; cases hb0
            · exact ⟨hdr0, hm0, hb0⟩)
          (fun m hm => hclean m (List.mem_cons_of_mem _ hm))
        refine ⟨h2, List.mem_cons_of_mem _ hm2, hb2, ?_⟩
        simp [Aci.extractEntries, hflag]
        rw [show (Aci.extractEntries dir rest).2
            = (Aci.extractEntries dir rest).snd from rfl] at he2
        exact he2
      | dir =>
        obtain ⟨h2, hm2, hb2, he2⟩ := ih
          (by
            obtain ⟨hdr0, hm0, hb0⟩ := hbad
            rcases List.mem_cons.mp hm0 with heq | hm0
            · cases heq
              rw [Aci.isRegOrDir, hflag] at hb0; cases hb0
            · exact ⟨hdr0, hm0, hb0⟩)
          (fun m hm => hclean m (List.mem_cons_of_mem _ hm))
        refine ⟨h2, List.mem_cons_of_mem _ hm2, hb2, ?_⟩
        simp [Aci.extractEntries, hflag]
        rw [show (Aci.extractEntries dir rest).2
            = (Aci.extractEntries dir rest).snd from rfl] at he2
        exact he2
      | symlink =>
        exact ⟨h, List.mem_cons_self _ _, by rw [Aci.isRegOrDir, hflag]; rfl,
          by simp [Aci.extractEntries, hflag]⟩
      | link =>
        exact ⟨h, List.mem_cons_self _ _, by rw [Aci.isRegOrDir, hflag]; rfl,
          by simp [Aci.extractEntries, hflag]⟩
      | chr =>
        exact ⟨h, List.mem_cons_self _ _, by rw [Aci.isRegOrDir, hflag]; rfl,
          by simp [Aci.extractEntries, hflag]⟩
      | blk =>
        exact ⟨h, List.mem_cons_self _ _, by rw [Aci.isRegOrDir, hflag]; rfl,
          by simp [Aci.extractEntries, hflag]⟩
      | fifo =>
        exact ⟨h, List.mem_cons_self _ _, by rw [Aci.isRegOrDir, hflag]; rfl,
          by simp [Aci.extractEntries, hflag]⟩
      | other =>
        exact ⟨h, List.mem_cons_self _ _, by rw [Aci.isRegOrDir, hflag]; rfl,
          by simp [Aci.extractEntries, hflag]⟩

/-- every filesystem action of the extract loop is the creation of a
regular file later chmodded to 0755, a 0755 chmod, or a 0755 directory. -/
theorem extractEntries_actions (dir : String) (items : List Aci.TarItem) :
    ∀ a ∈ (Aci.extractEntries dir items).1,
      (∃ p, a = Aci.FsAction.createFile p ∧
        Aci.FsAction.chmodFile p 493 ∈ (Aci.extractEntries dir items).1) ∨
      (∃ p, a = Aci.FsAction.chmodFile p 493) ∨
      (∃ p, a = Aci.FsAction.mkdirAll p 493) := by
  induction items with
  | nil => intro a ha; cases ha
  | cons item rest ih =>
    cases item with
    | readErr m => intro a ha; cases ha
    | hdr h =>
      cases hflag : h.typeflag with
      | reg =>
        intro a ha
        simp only [Aci.extractEntries, hflag] at ha ⊢
        rcases List.mem_cons.mp ha with rfl | ha2
        · exact Or.inl ⟨Aci.joinPath dir h.name, rfl,
            List.mem_cons_of_mem _ (List.mem_cons_self _ _)⟩
        rcases List.mem_cons.mp ha2 with rfl | ha3
        · exact Or.inr (Or.inl ⟨Aci.joinPath dir h.name, rfl⟩)
        · rcases ih a ha3 with ⟨p, hp, hmem⟩ | hrest
          · exact Or.inl ⟨p, hp,
              List.mem_cons_of_mem _ (List.mem_cons_of_mem _ hmem)⟩
          · exact Or.inr hrest
      | dir =>
        intro a ha
        simp only [Aci.extractEntries, hflag] at ha ⊢
        rcases List.mem_cons.mp ha with rfl | ha2
        · exact Or.inr (Or.inr ⟨Aci.joinPath dir h.name, rfl⟩)
        · rcases ih a ha2 with ⟨p, hp, hmem⟩ | hrest
          · exact Or.inl ⟨p, hp, List.mem_cons_of_mem _ hmem⟩
          · exact Or.inr hrest
      | symlink => intro a ha; simp [Aci.extractEntries, hflag] at ha
      | link => intro a ha; simp [Aci.extractEntries, hflag] at ha
      | chr => intro a ha; simp [Aci.extractEntries, hflag] at ha
      | blk => intro a ha; simp [Aci.extractEntries, hflag] at ha
      | fifo => intro a ha; simp [Aci.extractEntries, hflag] at ha
      | other => intro a ha; simp [Aci.extractEntries, hflag] at ha

/-- C9: a tar entry that is neither a regular file nor a directory makes
Extract fail with ErrUntar naming such an entry (the first one reached),
and whatever the input, the only filesystem effects under the extraction
directory are regular files chmodded to 0755 and directories made with
mode 0755. -/
theorem C9_extract_rejects_special_entries (dir : String) (items : List Aci.TarItem)
    (b : Bool)
    (hbad : ∃ hdr, Aci.TarItem.hdr hdr ∈ items ∧ Aci.isRegOrDir hdr = false)
    (hclean : ∀ m, Aci.TarItem.readErr m ∉ items) :
    (∃ h2, Aci.TarItem.hdr h2 ∈ items ∧ Aci.isRegOrDir h2 = false ∧
      (Aci.Extract dir (Aci.CompressedInput.stream items b)).2 =
        Except.error (Aci.ExtractErr.errUntar h2.name)) ∧
    (∀ f a, a ∈ (Aci.Extract dir f).1 →
      (∃ p, a = Aci.FsAction.createFile p ∧
        Aci.FsAction.chmodFile p 493 ∈ (Aci.Extract dir f).1) ∨
      (∃ p, a = Aci.FsAction.chmodFile p 493) ∨
      (∃ p, a = Aci.FsAction.mkdirAll p 493)) := by
  constructor
  · obtain ⟨h2, hm2, hb2, he2⟩ := extractEntries_rejects dir items hbad hclean
    refine ⟨h2, hm2, hb2, ?_⟩
    rcases hp : Aci.extractEntries dir items with ⟨as, r⟩
    rw [hp] at he2
    simp only at he2
    subst he2
    simp [Aci.Extract, hp]
  · intro f a
    cases f with
    | unreadable msg => intro ha; cases ha
    | stream items2 b2 =>
      have hact := extractEntries_actions dir items2
      rcases hp : Aci.extractEntries dir items2 with ⟨as, r⟩
      rw [hp] at hact
      simp only [Aci.Extract, hp]
      cases r with
      | none =>
        intro ha
        rcases hact a ha with ⟨p, h1, h2⟩ | hrest
        · exact Or.inl ⟨p, h1, h2⟩
        · exact Or.inr hrest
      | some err =>
        intro ha
        rcases hact a ha with ⟨p, h1, h2⟩ | hrest
        · exact Or.inl ⟨p, h1, h2⟩
        · exact Or.inr hrest

/-- C9 witness: extracting an archive whose single entry is a character
device fails with ErrUntar naming that entry, with no filesystem actions
performed. -/
theorem C9_extract_rejects_special_entries_witness :
    Aci.Extract "/tmp/aci" (Aci.CompressedInput.stream
      [Aci.TarItem.hdr ⟨"dev/null", Aci.TypeFlag.chr⟩] true) =
      ([], Except.error (Aci.ExtractErr.errUntar "dev/null")) := by
  have h := C9_extract_rejects_special_entries "/tmp/aci"
    [Aci.TarItem.hdr ⟨"dev/null", Aci.TypeFlag.chr⟩] true
    ⟨⟨"dev/null", Aci.TypeFlag.chr⟩, List.mem_cons_self _ _, rfl⟩
    (by intro m hm; rcases List.mem_cons.mp hm with heq | hm2
        · cases heq
        · cases hm2)
  rfl

/-- during Prepare, once every already-subscribed manager carries one more
subscribe call than unsubscribe calls and the remaining managers are
balanced with no held subscriptions, a surfaced error leaves every manager
balanced and holding nothing. -/
theorem prepareGo_compensates (rest : List Sched.ManagerMock) :
    ∀ done : List Sched.ManagerMock,
    (∀ m ∈ done, m.subscribeCallCount = m.unsubscribeCallCount + 1) →
    (∀ m ∈ rest, m.subscribeCallCount = m.unsubscribeCallCount ∧ m.heldForTask = 0) →
    (Sched.prepareGo done rest).2 = true →
    ∀ m ∈ (Sched.prepareGo done rest).1,
      m.subscribeCallCount = m.unsubscribeCallCount ∧ m.heldForTask = 0 := by
  induction rest with
  | nil =>
    intro done _ _ hfail
    simp [Sched.prepareGo] at hfail
  | cons m0 rest ih =>
    intro done hdone hrest hfail
    rcases hrest m0 (List.mem_cons_self _ _) with ⟨hbal0, hheld0⟩
    by_cases hf : m0.subscribeFails
    · intro m hm
      simp only [Sched.prepareGo, Sched.subscribeDeps, hf, if_true] at hm
      rcases List.mem_append.mp hm with hm1 | hm2
      · rw [List.mem_reverse] at hm1
        rcases List.mem_map.mp hm1 with ⟨y, hy, rfl⟩
        rcases List.mem_cons.mp hy with rfl | hy2
        · exact ⟨by simp [Sched.unsubscribeDeps, hbal0], rfl⟩
        · exact ⟨by simp [Sched.unsubscribeDeps, hdone y hy2], rfl⟩
      · exact hrest m (List.mem_cons_of_mem _ hm2)
    · have hred : Sched.prepareGo done (m0 :: rest) =
          Sched.prepareGo ((Sched.subscribeDeps m0).1 :: done) rest := by
        simp [Sched.prepareGo, Sched.subscribeDeps, hf]
      rw [hred] at hfail ⊢
      refine ih _ ?_ (fun m hm => hrest m (List.mem_cons_of_mem _ hm)) hfail
      intro m hm
      rcases List.mem_cons.mp hm with rfl | hm2
      · simp [Sched.subscribeDeps, hf, hbal0]
      · exact hdone m hm2

/-- C1: when the prepare step run by StartTask surfaces an error, every
manager the workflow touches has been unsubscribed for the task: starting
from balanced managers holding nothing, a failed Prepare leaves every
manager with equal SubscribeDeps and UnsubscribeDeps call counts and no
held subscription. -/
theorem C1_prepare_compensation (ms : List Sched.ManagerMock)
    (hstart : ∀ m ∈ ms, m.subscribeCallCount = m.unsubscribeCallCount ∧ m.heldForTask = 0)
    (hfail : (Sched.prepare ms).2 = true) :
    ∀ m ∈ (Sched.prepare ms).1,
      m.subscribeCallCount = m.unsubscribeCallCount ∧ m.heldForTask = 0 :=
  prepareGo_compensates ms [] (by intro m hm; cases hm) hstart hfail

/-- C1 witness: a local manager that subscribes and a remote manager that
refuses, as in the distributed-subscriptions test: after the failed
prepare both managers have one subscribe and one unsubscribe call and hold
nothing. -/
theorem C1_prepare_compensation_witness :
    Sched.prepare [⟨"", false, 0, 0, 0⟩, ⟨"127.0.0.1:40302", true, 0, 0, 0⟩] =
      ([⟨"", false, 1, 1, 0⟩, ⟨"127.0.0.1:40302", true, 1, 1, 0⟩], true) := by
  have h := C1_prepare_compensation
    [⟨"", false, 0, 0, 0⟩, ⟨"127.0.0.1:40302", true, 0, 0, 0⟩]
    (by intro m hm
        rcases List.mem_cons.mp hm with rfl | hm2
        · exact ⟨rfl, rfl⟩
        rcases List.mem_cons.mp hm2 with rfl | hm3
        · exact ⟨rfl, rfl⟩
        · cases hm3)
    (by decide)
  decide

/-- fire never changes the stop-on-failure threshold. -/
theorem fire_stopOnFailure (t : Sched.TaskRun) (o : Sched.FireOutcome) :
    (Sched.fire t o).stopOnFailure = t.stopOnFailure := by
  by_cases hs : t.state = Sched.TaskState.spinning
  · cases o with
    | success => simp [Sched.fire, hs]
    | queueFull => simp [Sched.fire, hs]
    | failure why =>
      by_cases hth : t.stopOnFailure ≤ t.consecutiveFailures + 1 <;>
        simp [Sched.fire, hs, hth]
  · simp [Sched.fire, hs]

/-- runFires never changes the stop-on-failure threshold. -/
theorem runFires_stopOnFailure (os : List Sched.FireOutcome) :
    ∀ t : Sched.TaskRun, (Sched.runFires t os).stopOnFailure = t.stopOnFailure := by
  induction os with
  | nil => intro t; rfl
  | cons o rest ih =>
    intro t
    show (Sched.runFires (Sched.fire t o) rest).stopOnFailure = t.stopOnFailure
    rw [ih (Sched.fire t o), fire_stopOnFailure]

/-- fire preserves the invariant that a non-disabled task is strictly below
its stop-on-failure threshold. -/
theorem fire_below_threshold (t : Sched.TaskRun) (o : Sched.FireOutcome)
    (h : t.state ≠ Sched.TaskState.disabled →
      t.consecutiveFailures < t.stopOnFailure) :
    (Sched.fire t o).state ≠ Sched.TaskState.disabled →
      (Sched.fire t o).consecutiveFailures < (Sched.fire t o).stopOnFailure := by
  by_cases hs : t.state = Sched.TaskState.spinning
  · have hlt := h (by rw [hs]; intro hc; cases hc)
    cases o with
    | success =>
      intro _
      simp [Sched.fire, hs]
      omega
    | queueFull =>
      intro _
      simp [Sched.fire, hs]
      exact hlt
    | failure why =>
      by_cases hth : t.stopOnFailure ≤ t.consecutiveFailures + 1
      · intro hnd
        exfalso
        apply hnd
        simp [Sched.fire, hs, hth]
      · intro _
        simp [Sched.fire, hs, hth]
        omega
  · simpa [Sched.fire, hs] using h

/-- the below-threshold invariant holds along any sequence of firings. -/
theorem runFires_below_threshold (os : List Sched.FireOutcome) :
    ∀ t : Sched.TaskRun,
    (t.state ≠ Sched.TaskState.disabled → t.consecutiveFailures < t.stopOnFailure) →
    ((Sched.runFires t os).state ≠ Sched.TaskState.disabled →
      (Sched.runFires t os).consecutiveFailures < (Sched.runFires t os).stopOnFailure) := by
  induction os with
  | nil => intro t h; exact h
  | cons o rest ih =>
    intro t h
    exact ih (Sched.fire t o) (fire_below_threshold t o h)

/-- C2: a running task transitions to Disabled exactly when a firing
failure brings its consecutive-failure counter to the threshold; the
counter resets on any successful firing; along any run with the default
threshold 3 the counter never exceeds 3 outside the Disabled state; and
the third consecutive failure disables the task, releases its
subscriptions and emits TaskDisabled with the reason. -/
theorem C2_disable_threshold (t : Sched.TaskRun) (os : List Sched.FireOutcome)
    (why : String)
    (hspin : t.state = Sched.TaskState.spinning)
    (hcf : t.consecutiveFailures < t.stopOnFailure) :
    ((Sched.fire t (Sched.FireOutcome.failure why)).state = Sched.TaskState.disabled ↔
      t.consecutiveFailures + 1 = t.stopOnFailure) ∧
    (Sched.fire t Sched.FireOutcome.success).consecutiveFailures = 0 ∧
    ((Sched.runFires (Sched.startedTask 3) os).state ≠ Sched.TaskState.disabled →
      (Sched.runFires (Sched.startedTask 3) os).consecutiveFailures ≤ 3) ∧
    (Sched.runFires (Sched.startedTask 3)
      [Sched.FireOutcome.failure why, Sched.FireOutcome.failure why,
       Sched.FireOutcome.failure why]).state = Sched.TaskState.disabled ∧
    (Sched.runFires (Sched.startedTask 3)
      [Sched.FireOutcome.failure why, Sched.FireOutcome.failure why,
       Sched.FireOutcome.failure why]).subscriptionHeld = false ∧
    Sched.TaskEventTag.taskDisabled why ∈
      (Sched.runFires (Sched.startedTask 3)
        [Sched.FireOutcome.failure why, Sched.FireOutcome.failure why,
         Sched.FireOutcome.failure why]).emitted := by
  refine ⟨?_, ?_, ?_, ?_, ?_, ?_⟩
  · constructor
    · intro hd
      by_cases hth : t.stopOnFailure ≤ t.consecutiveFailures + 1
      · omega
      · simp [Sched.fire, hspin, hth] at hd
    · intro heq
      have hth : t.stopOnFailure ≤ t.consecutiveFailures + 1 := le_of_eq heq.symm
      simp [Sched.fire, hspin, hth]
  · simp [Sched.fire, hspin]
  · intro hnd
    have h := runFires_below_threshold os (Sched.startedTask 3)
      (fun _ => by simp [Sched.startedTask]) hnd
    have hth := runFires_stopOnFailure os (Sched.startedTask 3)
    rw [hth] at h
    have h3 : (Sched.startedTask 3).stopOnFailure = 3 := rfl
    omega
  · rfl
  · rfl
  · simp [Sched.runFires, Sched.fire, Sched.startedTask]

/-- C2 witness: from a freshly started task with the default threshold,
three consecutive firing failures leave the task Disabled, at a concrete
instantiation of the theorem. -/
theorem C2_disable_threshold_witness :
    (Sched.runFires (Sched.startedTask 3)
      [Sched.FireOutcome.failure "rpc error", Sched.FireOutcome.failure "rpc error",
       Sched.FireOutcome.failure "rpc error"]).state = Sched.TaskState.disabled := by
  have h := C2_disable_threshold (Sched.startedTask 3) [] "rpc error" rfl (by decide)
  exact h.2.2.2.1

/-- C3: CreateTask with a non-empty error list creates nothing: no task is
returned and the table is unchanged; in particular a workflow whose single
remote node is unreachable yields exactly the RemoteUnavailable error and
no task, and one whose remote manager lacks the plugin yields exactly the
validation error and no task. -/
theorem C3_create_task_errors (env : Sched.MgrEnv) (tbl : List (String × Sched.SchedTask))
    (newId : String) (wf : Sched.Workflow) (s : Sched.WfStep)
    (hne : (Sched.createTask env tbl newId wf).errs ≠ []) :
    (Sched.createTask env tbl newId wf).task = none ∧
    (Sched.createTask env tbl newId wf).table = tbl ∧
    (s.target ≠ "" → env.reachable s.target = false →
      Sched.createTask env tbl newId ⟨[], [s]⟩ =
        ⟨none, [Sched.CreateErr.remoteUnavailable s.target], tbl⟩) ∧
    (s.target ≠ "" → env.reachable s.target = true → env.hasPlugin s.target s.name = false →
      Sched.createTask env tbl newId ⟨[], [s]⟩ =
        ⟨none, [Sched.CreateErr.validationErr s.name], tbl⟩) := by
  refine ⟨?_, ?_, ?_, ?_⟩
  · by_cases he : (Sched.validateWorkflow env wf).isEmpty
    · exfalso
      apply hne
      simp only [Sched.createTask, he, if_true]
    · simp [Sched.createTask, he]
  · by_cases he : (Sched.validateWorkflow env wf).isEmpty
    · exfalso
      apply hne
      simp only [Sched.createTask, he, if_true]
    · simp [Sched.createTask, he]
  · intro htgt hr
    have hv : Sched.validateWorkflow env ⟨[], [s]⟩ =
        [Sched.CreateErr.remoteUnavailable s.target] := by
      simp [Sched.validateWorkflow, Sched.validateStep, htgt, hr]
    simp [Sched.createTask, hv]
  · intro htgt hr hp
    have hv : Sched.validateWorkflow env ⟨[], [s]⟩ =
        [Sched.CreateErr.validationErr s.name] := by
      simp [Sched.validateWorkflow, Sched.validateStep, htgt, hr, hp]
    simp [Sched.createTask, hv]

/-- C3 witness: the distributed workflow of the tests pointed at the
unreachable remote target 127.0.0.1:0 is refused with exactly one
RemoteUnavailable error, a nil task and an unchanged (empty) table. -/
theorem C3_create_task_errors_witness :
    Sched.createTask ⟨fun a => a == "", fun _ _ => true, fun _ => true⟩ [] "task-uuid"
      ⟨[], [⟨Sched.StepKind.process, "passthru", -1, [], "127.0.0.1:0"⟩]⟩ =
      ⟨none, [Sched.CreateErr.remoteUnavailable "127.0.0.1:0"], []⟩ := by
  have h := C3_create_task_errors ⟨fun a => a == "", fun _ _ => true, fun _ => true⟩ []
    "task-uuid" ⟨[], [⟨Sched.StepKind.process, "passthru", -1, [], "127.0.0.1:0"⟩]⟩
    ⟨Sched.StepKind.process, "passthru", -1, [], "127.0.0.1:0"⟩
    (by decide)
  exact h.2.2.1 (by decide) rfl

/-- C4: StartTask on a task in the Disabled state is refused with
TaskDisabledNotRunnable and changes nothing, never reaching the prepare
step, while any found non-Disabled task does reach Subscription.Prepare;
the REST layer maps the disabled refusal to the 409 conflict response,
distinct from the 404 it gives TaskNotFound. -/
theorem C4_start_disabled_refused (tbl : List (String × Sched.SchedTask)) (id : String)
    (t : Sched.SchedTask) (hfind : lookupAssoc tbl id = some t) :
    (t.state = Sched.TaskState.disabled →
      Sched.startTask tbl id =
        ⟨some [Sched.StartErr.taskDisabledNotRunnable], tbl, false⟩) ∧
    (t.state ≠ Sched.TaskState.disabled →
      (Sched.startTask tbl id).prepareCalled = true) ∧
    Rest.startTaskRespCode
      (some ([Sched.StartErr.taskDisabledNotRunnable].map Sched.startErrMsg)) = 409 ∧
    Rest.startTaskRespCode
      (some ([Sched.StartErr.taskNotFound].map Sched.startErrMsg)) = 404 ∧
    (409 : Nat) ≠ 404 := by
  refine ⟨?_, ?_, by decide, by decide, by decide⟩
  · intro hdis
    simp [Sched.startTask, hfind, hdis]
  · intro hdis
    rcases hp : Sched.prepare t.managers with ⟨ms, failed⟩
    cases failed <;> simp [Sched.startTask, hfind, hdis, hp]

/-- C4 witness: starting a disabled task in a one-task table is refused
with TaskDisabledNotRunnable, the table unchanged and prepare not
reached. -/
theorem C4_start_disabled_refused_witness :
    Sched.startTask [("t1", ⟨Sched.TaskState.disabled, []⟩)] "t1" =
      ⟨some [Sched.StartErr.taskDisabledNotRunnable],
       [("t1", ⟨Sched.TaskState.disabled, []⟩)], false⟩ := by
  have h := C4_start_disabled_refused [("t1", ⟨Sched.TaskState.disabled, []⟩)] "t1"
    ⟨Sched.TaskState.disabled, []⟩ (by simp [lookupAssoc])
  exact h.1 rfl

/-- bind on a successful Except runs the continuation. -/
theorem excBindOk {e0 a b : Type} (x : a) (f : a → Except e0 b) :
    (Except.ok x >>= f) = f x := rfl

/-- bind on a failed Except keeps the error. -/
theorem excBindError {e0 a b : Type} (e : e0) (f : a → Except e0 b) :
    ((Except.error e : Except e0 a) >>= f) = Except.error e := rfl

/-- binding two computations whose success is input-independent yields a
computation whose success is input-independent. -/
theorem bindIndep {e0 a : Type} (f : a → Except e0 a)
    (hf : ∀ x y, (f x).toBool = (f y).toBool)
    (g : a → Except e0 a) (hg : ∀ x y, (g x).toBool = (g y).toBool)
    (x y : a) : (f x >>= g).toBool = (f y >>= g).toBool := by
  cases h1 : f x with
  | ok a1 =>
    cases h2 : f y with
    | ok a2 =>
      rw [excBindOk, excBindOk]
      exact hg a1 a2
    | error e =>
      have hb := hf x y
      rw [h1, h2] at hb
      simp [Except.toBool] at hb
  | error e1 =>
    cases h2 : f y with
    | ok a2 =>
      have hb := hf x y
      rw [h1, h2] at hb
      simp [Except.toBool] at hb
    | error e2 => rw [excBindError, excBindError]; rfl

/-- success of one plugin entry does not depend on the type item being
filled in. -/
theorem unmarshalPluginEntry_toBool (typ name : String) (c : Json)
    (it1 it2 : Control.pluginTypeConfigItem) :
    (Control.unmarshalPluginEntry typ name it1 c).toBool =
    (Control.unmarshalPluginEntry typ name it2 c).toBool := by
  cases c with
  | obj col =>
    simp only [Control.unmarshalPluginEntry]
    cases h1 : Control.unmarshalItemAll col with
    | ok item1 =>
      rw [excBindOk, excBindOk]
      cases h2 : Control.unmarshalItemVersions typ name col item1 with
      | ok item2 =>
        rw [excBindOk, excBindOk]
        exact (rfl : (true : Bool) = true)
      | error e => rw [excBindError, excBindError]
    | error e => rw [excBindError, excBindError]
  | null => rfl
  | bool b => rfl
  | num n => rfl
  | str s2 => rfl
  | arr xs => rfl

/-- success of the per-kind entry loop does not depend on the type item
being filled in. -/
theorem unmarshalPluginEntries_toBool (typ : String) (l : List (String × Json)) :
    ∀ it1 it2 : Control.pluginTypeConfigItem,
      (Control.unmarshalPluginEntries typ it1 l).toBool =
      (Control.unmarshalPluginEntries typ it2 l).toBool := by
  induction l with
  | nil => intro it1 it2; rfl
  | cons kv rest ih =>
    intro it1 it2
    obtain ⟨name, c⟩ := kv
    by_cases hall : name = "all"
    · subst hall
      cases hd : Control.decodeConfigDataNode c with
      | ok cdn =>
        simp only [Control.unmarshalPluginEntries, if_pos rfl, if_true, hd, excBindOk]
        exact ih _ _
      | error e =>
        simp only [Control.unmarshalPluginEntries, if_pos rfl, if_true, hd, excBindError]
    · simp only [Control.unmarshalPluginEntries, if_neg hall]
      have hind := unmarshalPluginEntry_toBool typ name c it1 it2
      cases h1 : Control.unmarshalPluginEntry typ name it1 c with
      | ok a1 =>
        cases h2 : Control.unmarshalPluginEntry typ name it2 c with
        | ok a2 =>
          rw [excBindOk, excBindOk]
          exact ih a1 a2
        | error e2 =>
          rw [h1, h2] at hind
          simp [Except.toBool] at hind
      | error e1 =>
        cases h2 : Control.unmarshalPluginEntry typ name it2 c with
        | ok a2 =>
          rw [h1, h2] at hind
          simp [Except.toBool] at hind
        | error e2 => rw [excBindError, excBindError]; rfl

/-- success of one plugin-kind section does not depend on the config being
filled in. -/
theorem unmarshalPluginConfig_toBool (typ : String) (t : List (String × Json))
    (p q : Control.pluginConfig) :
    (Control.unmarshalPluginConfig typ p t).toBool =
    (Control.unmarshalPluginConfig typ q t).toBool := by
  cases hl : lookupKey t typ with
  | none => simp only [Control.unmarshalPluginConfig, hl]; rfl
  | some v =>
    cases v with
    | obj plugins =>
      have hind := unmarshalPluginEntries_toBool typ plugins
        (Control.getTypeItem p typ) (Control.getTypeItem q typ)
      cases h1 : Control.unmarshalPluginEntries typ (Control.getTypeItem p typ) plugins with
      | ok a1 =>
        cases h2 : Control.unmarshalPluginEntries typ (Control.getTypeItem q typ) plugins with
        | ok a2 =>
          simp only [Control.unmarshalPluginConfig, hl, h1, h2, excBindOk]
          rfl
        | error e2 =>
          rw [h1, h2] at hind
          simp [Except.toBool] at hind
      | error e1 =>
        cases h2 : Control.unmarshalPluginEntries typ (Control.getTypeItem q typ) plugins with
        | ok a2 =>
          rw [h1, h2] at hind
          simp [Except.toBool] at hind
        | error e2 =>
          simp only [Control.unmarshalPluginConfig, hl, h1, h2, excBindError]
          rfl
    | null => simp only [Control.unmarshalPluginConfig, hl]
    | bool b => simp only [Control.unmarshalPluginConfig, hl]
    | num n => simp only [Control.unmarshalPluginConfig, hl]
    | str s2 => simp only [Control.unmarshalPluginConfig, hl]
    | arr xs => simp only [Control.unmarshalPluginConfig, hl]

/-- success of the whole plugins unmarshaller does not depend on the plugin
config already in place. -/
theorem pluginConfigUnmarshalJSON_toBool (data : Json) (p q : Control.pluginConfig) :
    (Control.pluginConfigUnmarshalJSON p data).toBool =
    (Control.pluginConfigUnmarshalJSON q data).toBool := by
  have hchain : ∀ p1 q1 : Control.pluginConfig, ∀ fs : List (String × Json),
      ((Control.unmarshalPluginConfig "collector" p1 fs >>= fun p2 =>
        Control.unmarshalPluginConfig "processor" p2 fs >>= fun p3 =>
        Control.unmarshalPluginConfig "publisher" p3 fs >>= fun p4 =>
        pure p4).toBool : Bool) =
      (Control.unmarshalPluginConfig "collector" q1 fs >>= fun p2 =>
        Control.unmarshalPluginConfig "processor" p2 fs >>= fun p3 =>
        Control.unmarshalPluginConfig "publisher" p3 fs >>= fun p4 =>
        pure p4).toBool := by
    intro p1 q1 fs
    refine bindIndep _ (fun x y => unmarshalPluginConfig_toBool "collector" fs x y) _
      (fun x y => ?_) p1 q1
    refine bindIndep _ (fun x2 y2 => unmarshalPluginConfig_toBool "processor" fs x2 y2) _
      (fun x2 y2 => ?_) x y
    refine bindIndep _ (fun x3 y3 => unmarshalPluginConfig_toBool "publisher" fs x3 y3)
      (fun p4 => pure p4) (fun x3 y3 => (rfl : (true : Bool) = true)) x2 y2
  cases data with
  | obj fs =>
    cases hall : lookupKey fs "all" with
    | none =>
      simp only [Control.pluginConfigUnmarshalJSON, pure_bind, hall]
      exact hchain p q fs
    | some v =>
      cases hd : Control.decodeConfigDataNode v with
      | ok cdn =>
        simp only [Control.pluginConfigUnmarshalJSON, pure_bind, hall, hd, excBindOk]
        exact hchain _ _ fs
      | error e =>
        simp only [Control.pluginConfigUnmarshalJSON, pure_bind, hall, hd, excBindError]
  | null =>
    simp only [Control.pluginConfigUnmarshalJSON, pure_bind, lookupKey]
    exact hchain p q []
  | bool b => rfl
  | num n => rfl
  | str s2 => rfl
  | arr xs => rfl

/-- an unrecognised key reaches the default case of the key switch. -/
theorem configUnmarshalStep_unrecognized (c : Control.Config) (k : String) (v : Json)
    (h : k ∉ Control.recognizedKeys) :
    Control.configUnmarshalStep c (k, v) =
      Except.error (Control.CfgError.unrecognizedKey k) := by
  simp only [Control.recognizedKeys, List.mem_cons, List.mem_singleton, not_or] at h
  unfold Control.configUnmarshalStep
  split <;> simp_all

/-- on a recognised key, the switch succeeds exactly when the value
parses. -/
theorem configUnmarshalStep_toBool (c : Control.Config) (k : String) (v : Json)
    (h : k ∈ Control.recognizedKeys) :
    (Control.configUnmarshalStep c (k, v)).toBool = Control.fieldParses k v := by
  simp only [Control.recognizedKeys, List.mem_cons, List.mem_singleton] at h
  rcases h with rfl | rfl | rfl | rfl | rfl | rfl | rfl | rfl | rfl | h
  · cases hr : Control.unmarshalIntField v with
    | ok o => cases o <;> simp [Control.configUnmarshalStep, Control.fieldParses, hr, Except.toBool]
    | error e => simp [Control.configUnmarshalStep, Control.fieldParses, hr, Except.toBool]
  · cases hr : Control.unmarshalIntField v with
    | ok o => cases o <;> simp [Control.configUnmarshalStep, Control.fieldParses, hr, Except.toBool]
    | error e => simp [Control.configUnmarshalStep, Control.fieldParses, hr, Except.toBool]
  · cases hr : Control.unmarshalIntField v with
    | ok o => cases o <;> simp [Control.configUnmarshalStep, Control.fieldParses, hr, Except.toBool]
    | error e => simp [Control.configUnmarshalStep, Control.fieldParses, hr, Except.toBool]
  · cases hr : Control.unmarshalStringField v with
    | ok o => cases o <;> simp [Control.configUnmarshalStep, Control.fieldParses, hr, Except.toBool]
    | error e => simp [Control.configUnmarshalStep, Control.fieldParses, hr, Except.toBool]
  · cases hr : Control.unmarshalStringField v with
    | ok o => cases o <;> simp [Control.configUnmarshalStep, Control.fieldParses, hr, Except.toBool]
    | error e => simp [Control.configUnmarshalStep, Control.fieldParses, hr, Except.toBool]
  · cases hr : Control.unmarshalDurationField v with
    | ok o => cases o <;> simp [Control.configUnmarshalStep, Control.fieldParses, hr, Except.toBool]
    | error e => simp [Control.configUnmarshalStep, Control.fieldParses, hr, Except.toBool]
  · have hind := pluginConfigUnmarshalJSON_toBool v c.plugins Control.newPluginConfig
    cases hr : Control.pluginConfigUnmarshalJSON c.plugins v with
    | ok p2 =>
      cases hr2 : Control.pluginConfigUnmarshalJSON Control.newPluginConfig v with
      | ok p3 =>
        simp [Control.configUnmarshalStep, Control.fieldParses, hr, hr2, Except.toBool]
      | error e2 =>
        rw [hr, hr2] at hind
        simp [Except.toBool] at hind
    | error e =>
      cases hr2 : Control.pluginConfigUnmarshalJSON Control.newPluginConfig v with
      | ok p3 =>
        rw [hr, hr2] at hind
        simp [Except.toBool] at hind
      | error e2 =>
        simp [Control.configUnmarshalStep, Control.fieldParses, hr, hr2, Except.toBool]
  · cases hr : Control.unmarshalStringField v with
    | ok o => cases o <;> simp [Control.configUnmarshalStep, Control.fieldParses, hr, Except.toBool]
    | error e => simp [Control.configUnmarshalStep, Control.fieldParses, hr, Except.toBool]
  · cases hr : Control.unmarshalIntField v with
    | ok o => cases o <;> simp [Control.configUnmarshalStep, Control.fieldParses, hr, Except.toBool]
    | error e => simp [Control.configUnmarshalStep, Control.fieldParses, hr, Except.toBool]
  · cases h

/-- when every recognised value parses, the first unrecognised key of the
object is the error the fold returns. -/
theorem configFold_unrecognized (fields : List (String × Json)) :
    ∀ c : Control.Config,
    (∀ kv ∈ fields, kv.1 ∈ Control.recognizedKeys →
      Control.fieldParses kv.1 kv.2 = true) →
    (∃ kv ∈ fields, kv.1 ∉ Control.recognizedKeys) →
    ∃ k, (∃ v, (k, v) ∈ fields) ∧ k ∉ Control.recognizedKeys ∧
      List.foldlM Control.configUnmarshalStep c fields =
        Except.error (Control.CfgError.unrecognizedKey k) := by
  induction fields with
  | nil =>
    intro c _ hbad
    obtain ⟨kv, hm, _⟩ := hbad
    cases hm
  | cons kv0 rest ih =>
    intro c hparse hbad
    obtain ⟨k0, v0⟩ := kv0
    by_cases hrec : k0 ∈ Control.recognizedKeys
    · have hp : Control.fieldParses k0 v0 = true :=
        hparse (k0, v0) (List.mem_cons_self _ _) hrec
      have hst := configUnmarshalStep_toBool c k0 v0 hrec
      rw [hp] at hst
      cases hs : Control.configUnmarshalStep c (k0, v0) with
      | error e =>
        rw [hs] at hst
        simp [Except.toBool] at hst
      | ok c1 =>
        have hbad2 : ∃ kv ∈ rest, kv.1 ∉ Control.recognizedKeys := by
          obtain ⟨kv2, hm2, hb2⟩ := hbad
          rcases List.mem_cons.mp hm2 with heq | hm3
          · subst heq
            exact absurd hrec hb2
          · exact ⟨kv2, hm3, hb2⟩
        obtain ⟨k, ⟨v, hv⟩, hnk, hres⟩ := ih c1
          (fun kv2 hm2 => hparse kv2 (List.mem_cons_of_mem _ hm2)) hbad2
        refine ⟨k, ⟨v, List.mem_cons_of_mem _ hv⟩, hnk, ?_⟩
        rw [List.foldlM_cons, hs, excBindOk]
        exact hres
    · refine ⟨k0, ⟨v0, List.mem_cons_self _ _⟩, hrec, ?_⟩
      rw [List.foldlM_cons, configUnmarshalStep_unrecognized c k0 v0 hrec, excBindError]

/-- a successful config fold means every present key was recognised and
its value parsed. -/
theorem configFold_ok (fields : List (String × Json)) :
    ∀ c c2 : Control.Config,
    List.foldlM Control.configUnmarshalStep c fields = Except.ok c2 →
    ∀ kv ∈ fields, kv.1 ∈ Control.recognizedKeys ∧
      Control.fieldParses kv.1 kv.2 = true := by
  induction fields with
  | nil => intro c c2 _ kv hm; cases hm
  | cons kv0 rest ih =>
    intro c c2 hok kv hm
    rw [List.foldlM_cons] at hok
    cases hs : Control.configUnmarshalStep c kv0 with
    | error e =>
      rw [hs, excBindError] at hok
      cases hok
    | ok c1 =>
      rw [hs, excBindOk] at hok
      rcases List.mem_cons.mp hm with rfl | hm2
      · obtain ⟨k0, v0⟩ := kv
        by_cases hrec : k0 ∈ Control.recognizedKeys
        · refine ⟨hrec, ?_⟩
          have hst := configUnmarshalStep_toBool c k0 v0 hrec
          rw [hs] at hst
          exact hst.symm.trans rfl
        · rw [configUnmarshalStep_unrecognized c k0 v0 hrec] at hs
          exact Except.noConfusion hs
      · exact ih c1 c2 hok kv hm2

/-- C8 (amended): if the object given to Config.UnmarshalJSON contains any
key outside the recognised set, unmarshalling returns an error, never nil;
when every recognised key value parses this error is the unrecognized-key
error naming such a key; and a nil (ok) return means every present key was
recognised and its value parsed.  (When a recognised key value fails to
parse, that parse error can be returned instead of the unrecognized-key
error; see the counterexample.) -/
theorem C8_config_unrecognized_key (c : Control.Config) (fields : List (String × Json))
    (hparse : ∀ kv ∈ fields, kv.1 ∈ Control.recognizedKeys →
      Control.fieldParses kv.1 kv.2 = true) :
    ((∃ kv ∈ fields, kv.1 ∉ Control.recognizedKeys) →
      ∃ k, (∃ v, (k, v) ∈ fields) ∧ k ∉ Control.recognizedKeys ∧
        Control.configUnmarshalJSON c (Json.obj fields) =
          Except.error (Control.CfgError.unrecognizedKey k)) ∧
    (∀ c2, Control.configUnmarshalJSON c (Json.obj fields) = Except.ok c2 →
      ∀ kv ∈ fields, kv.1 ∈ Control.recognizedKeys ∧
        Control.fieldParses kv.1 kv.2 = true) := by
  constructor
  · intro hbad
    exact configFold_unrecognized fields c hparse hbad
  · intro c2 hok
    exact configFold_ok fields c c2 hok

/-- C8 witness: an object with a parsing listen_port and the unrecognised
key bogus_key is rejected with the error naming bogus_key. -/
theorem C8_config_unrecognized_key_witness :
    Control.configUnmarshalJSON Control.getDefaultConfig
      (Json.obj [("listen_port", Json.num 9000), ("bogus_key", Json.num 1)]) =
      Except.error (Control.CfgError.unrecognizedKey "bogus_key") := by
  have h := C8_config_unrecognized_key Control.getDefaultConfig
    [("listen_port", Json.num 9000), ("bogus_key", Json.num 1)]
    (by intro kv hm hrec
        rcases List.mem_cons.mp hm with rfl | hm2
        · rfl
        rcases List.mem_cons.mp hm2 with rfl | hm3
        · exact absurd hrec (by decide)
        · cases hm3)
  rfl

/-- C8 counterexample: with listen_port bound to a string and the
unrecognised key bogus_key both present, unmarshalling returns the
listen_port type error, an error that does not name bogus_key, so the
claim that the error names the unrecognised key fails as stated. -/
theorem C8_parse_error_preempts :
    Control.configUnmarshalJSON Control.getDefaultConfig
      (Json.obj [("listen_port", Json.str "localhost"), ("bogus_key", Json.num 1)]) =
      Except.error (Control.CfgError.raw (Control.GoErr.jsonType "int")) ∧
    Control.CfgError.raw (Control.GoErr.jsonType "int") ≠
      Control.CfgError.unrecognizedKey "bogus_key" :=
  ⟨rfl, by decide⟩

end Snap
